import Mathlib

/-!
Verification of the idempotent order-execution core (class TradingEngine)
of the flowdesk-qa-ts repository.

The embedding below translates the TypeScript source directly:
numbers on the code paths in question are integers, JS Set of strings is
a list with membership, and the mutable class instance becomes explicit
state passing of a TradingEngine record.
-/

namespace Flowdesk

/-- OrderStatus from src/types.ts: the closed union OPEN, PARTIALLY_FILLED, FILLED. -/
inductive OrderStatus where
  | OPEN
  | PARTIALLY_FILLED
  | FILLED
deriving DecidableEq, Repr

/-- Order from src/types.ts: id, quantity, filledQuantity, status.
The source interface has no further fields. -/
structure Order where
  id : String
  quantity : Int
  filledQuantity : Int
  status : OrderStatus
deriving DecidableEq, Repr

/-- Account from src/types.ts: a single numeric balance. -/
structure Account where
  balance : Int
deriving DecidableEq, Repr

/-- ExecutionEvent from src/types.ts.  The type field is modelled as a
String because applyExecution guards on evt.type at runtime. -/
structure ExecutionEvent where
  type : String
  eventId : String
  orderId : String
  executedQuantity : Int
deriving DecidableEq, Repr

/-- The return shape of TradingEngine.applyExecution in the source:
applied boolean plus an optional reason string.  The source return type
has no other field. -/
structure ApplyResult where
  applied : Bool
  reason : Option String
deriving DecidableEq, Repr

/-- The mutable state of one TradingEngine instance: its order, its
account, and the processed-event id set (a JS Set of strings, modelled
as a list queried by membership). -/
structure TradingEngine where
  order : Order
  account : Account
  processedEventIds : List String
deriving DecidableEq, Repr

/-- Direct translation of TradingEngine.applyExecution.  The guard
cascade, the overfill cap, the unconditional balance subtraction, the
status recomputation and the capped_overfill feedback follow the source
line by line. -/
def applyExecution (st : TradingEngine) (evt : ExecutionEvent) :
    TradingEngine × ApplyResult :=
  if evt.type ≠ "execution" then
    (st, { applied := false, reason := some "unsupported_event" })
  else if evt.eventId ∈ st.processedEventIds then
    (st, { applied := false, reason := some "duplicate_event" })
  else if evt.orderId ≠ st.order.id then
    (st, { applied := false, reason := some "unknown_order" })
  else if evt.executedQuantity ≤ 0 then
    (st, { applied := false, reason := some "invalid_executed_quantity" })
  else if st.order.status = OrderStatus.FILLED then
    (st, { applied := false, reason := some "already_filled" })
  else
    let remaining := st.order.quantity - st.order.filledQuantity
    let effectiveQty := min evt.executedQuantity remaining
    let newFilled := st.order.filledQuantity + effectiveQty
    let newStatus :=
      if newFilled = st.order.quantity then OrderStatus.FILLED
      else if newFilled > 0 then OrderStatus.PARTIALLY_FILLED
      else OrderStatus.OPEN
    let st' : TradingEngine :=
      { order := { st.order with filledQuantity := newFilled, status := newStatus }
        account := { balance := st.account.balance - effectiveQty }
        processedEventIds := evt.eventId :: st.processedEventIds }
    if effectiveQty < evt.executedQuantity then
      (st', { applied := true, reason := some "capped_overfill" })
    else
      (st', { applied := true, reason := none })

/-- Direct translation of TradingEngine.clearProcessedEvents: it only
clears the processed-event id set. -/
def clearProcessedEvents (st : TradingEngine) : TradingEngine :=
  { st with processedEventIds := [] }

/-- Folding applyExecution over a list of events, keeping the state. -/
def applyAll (st : TradingEngine) (evts : List ExecutionEvent) : TradingEngine :=
  evts.foldl (fun s e => (applyExecution s e).1) st

/-- Modelled from the spec, section 4.1: the rejection cascade in its
stated precedence order, as a function returning the first matching
rejection reason (none when every check passes).  Used to compare the
behaviour of the source against the order the spec states. -/
def specRejectionCascade (st : TradingEngine) (evt : ExecutionEvent) : Option String :=
  if evt.type ≠ "execution" then some "unsupported_event"
  else if evt.eventId ∈ st.processedEventIds then some "duplicate_event"
  else if evt.orderId ≠ st.order.id then some "unknown_order"
  else if evt.executedQuantity ≤ 0 then some "invalid_executed_quantity"
  else if st.order.status = OrderStatus.FILLED then some "already_filled"
  else none

/-- Modelled from the spec, section 3: status is a pure function of
filledQuantity versus quantity (0 gives OPEN, strictly between 0 and
quantity gives PARTIALLY_FILLED, equal to quantity gives FILLED). -/
def statusOf (filledQuantity quantity : Int) : OrderStatus :=
  if filledQuantity = 0 then OrderStatus.OPEN
  else if filledQuantity = quantity then OrderStatus.FILLED
  else OrderStatus.PARTIALLY_FILLED

/-- Modelled from the spec, section 3: the order side BUY or SELL.  The
Order interface in src/types.ts has no such field. -/
inductive Side where
  | BUY
  | SELL
deriving DecidableEq, Repr

/-- Modelled from the spec, section 4.1 step 7: the balance change the
spec prescribes for a successful apply of a given effective quantity,
negative for BUY and positive for SELL. -/
def specBalanceDelta (side : Side) (effectiveQuantity : Int) : Int :=
  match side with
  | Side.BUY => -effectiveQuantity
  | Side.SELL => effectiveQuantity

/-- Modelled from the spec, sections 3 and 6: the ApplyResult shape the
spec describes, with an optional effectiveQuantity field.  The source
return type has no such field. -/
structure ApplyResultSpec where
  applied : Bool
  reason : Option String
  effectiveQuantity : Option Int
deriving DecidableEq, Repr

/-- The injection of the source result shape into the shape the spec
describes: the source never produces an effectiveQuantity, so that
field is always absent. -/
def ApplyResult.toSpec (r : ApplyResult) : ApplyResultSpec :=
  { applied := r.applied, reason := r.reason, effectiveQuantity := none }

/-! Reference-cell model of the processed-event set, for the defensive
copy claim.  A JS Set object lives on a heap and the engine field holds
a reference to it; SetStore is that heap, a reference is an index. -/

/-- A heap of JS Set objects holding strings; a reference is an index
into contents. -/
structure SetStore where
  contents : List (List String)
deriving DecidableEq, Repr

/-- Dereference: the contents of the set object behind reference r. -/
def SetStore.read (σ : SetStore) (r : Nat) : List String :=
  σ.contents.getD r []

/-- Allocation of a fresh set object with the given contents, as the
expression new Set(x) does; returns the extended heap and the fresh
reference. -/
def SetStore.alloc (σ : SetStore) (v : List String) : SetStore × Nat :=
  ({ contents := σ.contents ++ [v] }, σ.contents.length)

/-- In-place mutation of the set object behind reference r. -/
def SetStore.write (σ : SetStore) (r : Nat) (v : List String) : SetStore :=
  { contents := σ.contents.set r v }

/-- A TradingEngine instance under the heap model: the processed-event
set is held by reference. -/
structure TradingEngineRef where
  order : Order
  account : Account
  processedRef : Nat
deriving DecidableEq, Repr

/-- Direct translation of TradingEngine.getProcessedEventIds: it returns
new Set(this.processedEventIds), a freshly allocated copy of the
internal set. -/
def getProcessedEventIds (σ : SetStore) (eng : TradingEngineRef) : SetStore × Nat :=
  σ.alloc (σ.read eng.processedRef)

/-- applyExecution under the heap model: read the set behind the engine
reference, run the pure transition, write the updated set back through
the same reference. -/
def applyExecutionRef (σ : SetStore) (eng : TradingEngineRef) (evt : ExecutionEvent) :
    SetStore × TradingEngineRef × ApplyResult :=
  let st : TradingEngine := ⟨eng.order, eng.account, σ.read eng.processedRef⟩
  let p := applyExecution st evt
  (σ.write eng.processedRef p.1.processedEventIds,
   { order := p.1.order, account := p.1.account, processedRef := eng.processedRef },
   p.2)

/-! Concrete fixtures used by witnesses and counterexamples, taken from
the example scenarios in spec section 8. -/

/-- A fresh OPEN order of quantity 10, as in spec scenario 1. -/
def sampleOrder : Order :=
  { id := "ORD-1", quantity := 10, filledQuantity := 0, status := OrderStatus.OPEN }

/-- A fresh engine: sampleOrder, balance 100, nothing processed. -/
def sampleEngine : TradingEngine :=
  { order := sampleOrder, account := { balance := 100 }, processedEventIds := [] }

/-- Spec scenario 1: event E1 executing quantity 4 against ORD-1. -/
def buyEvent4 : ExecutionEvent :=
  { type := "execution", eventId := "E1", orderId := "ORD-1", executedQuantity := 4 }

/-- Spec scenario 5: event E5 with executed quantity 0. -/
def zeroQtyEvent : ExecutionEvent :=
  { type := "execution", eventId := "E5", orderId := "ORD-1", executedQuantity := 0 }

/-- Spec scenario 4: event E4 targeting a different order id. -/
def wrongOrderEvent : ExecutionEvent :=
  { type := "execution", eventId := "E4", orderId := "WRONG", executedQuantity := 5 }

/-- Spec scenario 2: an engine whose order is 8 of 10 filled. -/
def cappedEngine : TradingEngine :=
  { order := { id := "ORD-1", quantity := 10, filledQuantity := 8,
               status := OrderStatus.PARTIALLY_FILLED }
    account := { balance := 100 }
    processedEventIds := [] }

/-- Spec scenario 2: event E2 claiming quantity 5 with only 2 remaining. -/
def cappedEvent : ExecutionEvent :=
  { type := "execution", eventId := "E2", orderId := "ORD-1", executedQuantity := 5 }

/-- Spec scenario 3: an engine whose order is FILLED. -/
def filledEngine : TradingEngine :=
  { order := { id := "ORD-1", quantity := 10, filledQuantity := 10,
               status := OrderStatus.FILLED }
    account := { balance := 90 }
    processedEventIds := ["E1"] }

/-- Spec scenario 3: a fresh event E3 against the filled order. -/
def freshEvent : ExecutionEvent :=
  { type := "execution", eventId := "E3", orderId := "ORD-1", executedQuantity := 1 }

/-- A one-cell heap: the set object behind reference 0 holds E9. -/
def sampleStore : SetStore :=
  { contents := [["E9"]] }

/-- An engine instance whose processed-event set is the object behind
reference 0 of sampleStore. -/
def sampleEngineRef : TradingEngineRef :=
  { order := sampleOrder, account := { balance := 100 }, processedRef := 0 }

end Flowdesk

namespace Flowdesk

/-! Helper lemmas about applyExecution, shared by the claim theorems. -/

/-- Any rejected call leaves the engine state untouched. -/
lemma state_unchanged_of_rejected (st : TradingEngine) (evt : ExecutionEvent)
    (h : (applyExecution st evt).2.applied = false) : (applyExecution st evt).1 = st := by
  unfold applyExecution at *
  dsimp only at *
  split_ifs at * <;> simp_all

/-- The post state of a successful call, field by field. -/
lemma success_fields (st : TradingEngine) (evt : ExecutionEvent)
    (h1 : evt.type = "execution") (h2 : evt.eventId ∉ st.processedEventIds)
    (h3 : evt.orderId = st.order.id) (h4 : 0 < evt.executedQuantity)
    (h5 : st.order.status ≠ OrderStatus.FILLED) :
    (applyExecution st evt).1.order.filledQuantity = st.order.filledQuantity +
      min evt.executedQuantity (st.order.quantity - st.order.filledQuantity) ∧
    (applyExecution st evt).1.order.quantity = st.order.quantity ∧
    (applyExecution st evt).1.order.id = st.order.id ∧
    (applyExecution st evt).1.account.balance = st.account.balance -
      min evt.executedQuantity (st.order.quantity - st.order.filledQuantity) ∧
    (applyExecution st evt).1.processedEventIds = evt.eventId :: st.processedEventIds ∧
    (applyExecution st evt).1.order.status =
      (if st.order.filledQuantity +
          min evt.executedQuantity (st.order.quantity - st.order.filledQuantity) =
          st.order.quantity then OrderStatus.FILLED
        else if st.order.filledQuantity +
            min evt.executedQuantity (st.order.quantity - st.order.filledQuantity) > 0 then
          OrderStatus.PARTIALLY_FILLED
        else OrderStatus.OPEN) ∧
    (applyExecution st evt).2.applied = true := by
  unfold applyExecution
  dsimp only
  split_ifs <;> simp_all <;> omega

/-- A call only succeeds when all five guards pass. -/
lemma applied_cases (st : TradingEngine) (evt : ExecutionEvent)
    (h : (applyExecution st evt).2.applied = true) :
    evt.type = "execution" ∧ evt.eventId ∉ st.processedEventIds ∧
    evt.orderId = st.order.id ∧ 0 < evt.executedQuantity ∧
    st.order.status ≠ OrderStatus.FILLED := by
  unfold applyExecution at h
  dsimp only at h
  split_ifs at h <;> simp_all

/-- The result of a successful call, as a function of the cap test. -/
lemma success_result (st : TradingEngine) (evt : ExecutionEvent)
    (h1 : evt.type = "execution") (h2 : evt.eventId ∉ st.processedEventIds)
    (h3 : evt.orderId = st.order.id) (h4 : 0 < evt.executedQuantity)
    (h5 : st.order.status ≠ OrderStatus.FILLED) :
    (applyExecution st evt).2 =
      (if min evt.executedQuantity (st.order.quantity - st.order.filledQuantity) <
          evt.executedQuantity then
        { applied := true, reason := some "capped_overfill" }
      else { applied := true, reason := none }) := by
  unfold applyExecution
  dsimp only
  split_ifs <;> simp_all <;> omega

/-- A duplicate execution event is rejected and changes nothing. -/
lemma apply_dup (st : TradingEngine) (evt : ExecutionEvent)
    (h1 : evt.type = "execution") (h2 : evt.eventId ∈ st.processedEventIds) :
    applyExecution st evt = (st, { applied := false, reason := some "duplicate_event" }) := by
  unfold applyExecution
  dsimp only
  split_ifs <;> simp_all

/-- The spec cascade passes exactly when all five guards pass. -/
lemma cascade_none_iff (st : TradingEngine) (evt : ExecutionEvent) :
    specRejectionCascade st evt = none ↔
      (evt.type = "execution" ∧ evt.eventId ∉ st.processedEventIds ∧
       evt.orderId = st.order.id ∧ 0 < evt.executedQuantity ∧
       st.order.status ≠ OrderStatus.FILLED) := by
  unfold specRejectionCascade
  split_ifs <;> simp_all

/-- One apply call preserves the fill bounds. -/
lemma step_bounds (st : TradingEngine) (evt : ExecutionEvent)
    (h0 : 0 ≤ st.order.filledQuantity) (h1 : st.order.filledQuantity ≤ st.order.quantity) :
    0 ≤ (applyExecution st evt).1.order.filledQuantity ∧
    (applyExecution st evt).1.order.filledQuantity ≤ (applyExecution st evt).1.order.quantity := by
  by_cases h : (applyExecution st evt).2.applied = true
  · obtain ⟨g1, g2, g3, g4, g5⟩ := applied_cases st evt h
    obtain ⟨hf, hq, -, -, -, -, -⟩ := success_fields st evt g1 g2 g3 g4 g5
    rw [hf, hq]
    omega
  · have hfalse : (applyExecution st evt).2.applied = false := by
      revert h
      cases (applyExecution st evt).2.applied <;> simp
    rw [state_unchanged_of_rejected st evt hfalse]
    exact ⟨h0, h1⟩

/-- Reading one past position of an appended element. -/
lemma getD_concat_length {α : Type} (l : List α) (v d : α) :
    (l ++ [v]).getD l.length d = v := by
  induction l with
  | nil => rfl
  | cons y ys ih => simp [List.getD]

/-- Writing one cell leaves every other cell unchanged. -/
lemma getD_set_ne {α : Type} (l : List α) (i j : Nat) (v d : α) (h : i ≠ j) :
    (l.set i v).getD j d = l.getD j d := by
  induction l generalizing i j with
  | nil => rfl
  | cons y ys ih =>
    cases i with
    | zero =>
      cases j with
      | zero => exact absurd rfl h
      | succ j => simp [List.getD]
    | succ i =>
      cases j with
      | zero => simp [List.getD]
      | succ j => simpa [List.getD] using ih i j (by omega)

/-- Reading a cell just written, inside bounds. -/
lemma getD_set_lt {α : Type} (l : List α) (i : Nat) (v d : α) (h : i < l.length) :
    (l.set i v).getD i d = v := by
  induction l generalizing i with
  | nil => simp at h
  | cons y ys ih =>
    cases i with
    | zero => rfl
    | succ i => simpa [List.getD] using ih i (by simpa using h)

/-- applyExecutionRef only looks at the store through the engine
reference, so stores agreeing there produce the same outcome. -/
lemma applyExecutionRef_read_congr (σ1 σ2 : SetStore) (eng : TradingEngineRef)
    (evt : ExecutionEvent)
    (h : σ1.read eng.processedRef = σ2.read eng.processedRef)
    (hl1 : eng.processedRef < σ1.contents.length)
    (hl2 : eng.processedRef < σ2.contents.length) :
    (applyExecutionRef σ1 eng evt).2 = (applyExecutionRef σ2 eng evt).2 ∧
    ((applyExecutionRef σ1 eng evt).1).read eng.processedRef =
      ((applyExecutionRef σ2 eng evt).1).read eng.processedRef := by
  unfold applyExecutionRef
  dsimp only
  rw [h]
  refine ⟨rfl, ?_⟩
  unfold SetStore.write SetStore.read
  dsimp only
  rw [getD_set_lt _ _ _ _ hl1, getD_set_lt _ _ _ _ hl2]

/-! The claims. -/

/-- C1: applying an event and then an identical copy of it leaves the
state exactly as after the first call, and whenever the first call
succeeded the second is rejected with reason duplicate_event.  The
frozen claim asserts the duplicate_event reason for every event; it
holds only when the first application succeeded (see the
counterexample), so the reason part is stated under that hypothesis. -/
theorem C1_idempotence (st : TradingEngine) (evt : ExecutionEvent) :
    (applyExecution (applyExecution st evt).1 evt).1 = (applyExecution st evt).1 ∧
    ((applyExecution st evt).2.applied = true →
      (applyExecution (applyExecution st evt).1 evt).2 =
        { applied := false, reason := some "duplicate_event" }) := by
  by_cases h : (applyExecution st evt).2.applied = true
  · obtain ⟨g1, g2, g3, g4, g5⟩ := applied_cases st evt h
    have hp := (success_fields st evt g1 g2 g3 g4 g5).2.2.2.2.1
    have hdup : applyExecution (applyExecution st evt).1 evt =
        ((applyExecution st evt).1,
          { applied := false, reason := some "duplicate_event" }) := by
      apply apply_dup _ _ g1
      rw [hp]
      exact List.mem_cons_self _ _
    exact ⟨by rw [hdup], fun _ => by rw [hdup]⟩
  · have hfalse : (applyExecution st evt).2.applied = false := by
      revert h
      cases (applyExecution st evt).2.applied <;> simp
    have h1 := state_unchanged_of_rejected st evt hfalse
    refine ⟨?_, fun happ => absurd happ h⟩
    rw [h1]
    exact h1

/-- C1 counterexample: a zero-quantity event is rejected on its first
delivery without being recorded, so the second delivery is rejected
with invalid_executed_quantity again, not with duplicate_event as the
frozen claim states. -/
theorem C1_counterexample :
    (applyExecution (applyExecution sampleEngine zeroQtyEvent).1 zeroQtyEvent).2.reason =
      some "invalid_executed_quantity" ∧
    some "invalid_executed_quantity" ≠ some "duplicate_event" := by
  exact ⟨by decide, by decide⟩

/-- C1 witness: spec scenario 1 on a concrete engine. -/
theorem C1_witness :
    (applyExecution sampleEngine buyEvent4).2.applied = true ∧
    (applyExecution (applyExecution sampleEngine buyEvent4).1 buyEvent4).2 =
      { applied := false, reason := some "duplicate_event" } :=
  ⟨by decide, (C1_idempotence sampleEngine buyEvent4).2 (by decide)⟩

/-- C2: from any state with fill bounds intact, any sequence of apply
calls keeps filledQuantity at most quantity. -/
theorem C2_no_overfill (st : TradingEngine) (evts : List ExecutionEvent)
    (h0 : 0 ≤ st.order.filledQuantity) (h1 : st.order.filledQuantity ≤ st.order.quantity) :
    (applyAll st evts).order.filledQuantity ≤ (applyAll st evts).order.quantity := by
  induction evts generalizing st with
  | nil => exact h1
  | cons e es ih =>
    have hb := step_bounds st e h0 h1
    exact ih _ hb.1 hb.2

/-- C2 witness: a concrete three-event sequence including a capped
overfill and a duplicate. -/
theorem C2_witness :
    0 ≤ sampleEngine.order.filledQuantity ∧
    sampleEngine.order.filledQuantity ≤ sampleEngine.order.quantity ∧
    (applyAll sampleEngine [buyEvent4, cappedEvent, cappedEvent]).order.filledQuantity ≤
      (applyAll sampleEngine [buyEvent4, cappedEvent, cappedEvent]).order.quantity :=
  ⟨by decide, by decide,
    C2_no_overfill sampleEngine [buyEvent4, cappedEvent, cappedEvent] (by decide) (by decide)⟩

/-- C3: applyExecution rejects exactly when the spec cascade, evaluated
in its stated precedence order, yields a reason; it returns that first
matching reason and leaves order, balance and the processed set
unchanged; when the cascade passes, the call succeeds. -/
theorem C3_rejection_precedence (st : TradingEngine) (evt : ExecutionEvent) :
    (∀ r, specRejectionCascade st evt = some r →
      applyExecution st evt = (st, { applied := false, reason := some r })) ∧
    (specRejectionCascade st evt = none → (applyExecution st evt).2.applied = true) := by
  constructor
  · intro r hr
    unfold specRejectionCascade at hr
    unfold applyExecution
    dsimp only at *
    split_ifs at * <;> simp_all
  · intro hn
    unfold specRejectionCascade at hn
    unfold applyExecution
    dsimp only at *
    split_ifs at * <;> simp_all

/-- C3 witness: spec scenario 4, a wrong order id. -/
theorem C3_witness :
    specRejectionCascade sampleEngine wrongOrderEvent = some "unknown_order" ∧
    applyExecution sampleEngine wrongOrderEvent =
      (sampleEngine, { applied := false, reason := some "unknown_order" }) :=
  ⟨by decide,
    (C3_rejection_precedence sampleEngine wrongOrderEvent).1 "unknown_order" (by decide)⟩

/-- C4: a FILLED order is terminal: every event is rejected with the
state untouched, and a fresh well-targeted positive event is rejected
with reason already_filled. -/
theorem C4_terminal_filled (st : TradingEngine) (evt : ExecutionEvent)
    (hF : st.order.status = OrderStatus.FILLED) :
    (applyExecution st evt).1 = st ∧
    (applyExecution st evt).2.applied = false ∧
    (evt.type = "execution" → evt.eventId ∉ st.processedEventIds →
      evt.orderId = st.order.id → 0 < evt.executedQuantity →
      (applyExecution st evt).2.reason = some "already_filled") := by
  unfold applyExecution
  dsimp only
  split_ifs <;> simp_all

/-- C4 witness: spec scenario 3, a fresh event against a filled order. -/
theorem C4_witness :
    filledEngine.order.status = OrderStatus.FILLED ∧
    (applyExecution filledEngine freshEvent).1 = filledEngine ∧
    (applyExecution filledEngine freshEvent).2.applied = false ∧
    (applyExecution filledEngine freshEvent).2.reason = some "already_filled" := by
  have h := C4_terminal_filled filledEngine freshEvent (by decide)
  exact ⟨by decide, h.1, h.2.1, h.2.2 (by decide) (by decide) (by decide) (by decide)⟩

/-- C5: from a state whose status agrees with the pure status function
of fill versus quantity, any apply call leaves the status again equal
to that function of the updated fill. -/
theorem C5_status_consistency (st : TradingEngine) (evt : ExecutionEvent)
    (hq : 0 < st.order.quantity)
    (h0 : 0 ≤ st.order.filledQuantity)
    (h1 : st.order.filledQuantity ≤ st.order.quantity)
    (hs : st.order.status = statusOf st.order.filledQuantity st.order.quantity) :
    (applyExecution st evt).1.order.status =
      statusOf (applyExecution st evt).1.order.filledQuantity
        (applyExecution st evt).1.order.quantity := by
  by_cases h : (applyExecution st evt).2.applied = true
  · obtain ⟨g1, g2, g3, g4, g5⟩ := applied_cases st evt h
    obtain ⟨hf, hqq, -, -, -, hst, -⟩ := success_fields st evt g1 g2 g3 g4 g5
    rw [hf, hqq, hst]
    unfold statusOf
    split_ifs <;> first | rfl | (exfalso; omega)
  · have hfalse : (applyExecution st evt).2.applied = false := by
      revert h
      cases (applyExecution st evt).2.applied <;> simp
    rw [state_unchanged_of_rejected st evt hfalse]
    exact hs

/-- C5 witness: spec scenario 2 reaching FILLED through a capped fill. -/
theorem C5_witness :
    0 < cappedEngine.order.quantity ∧
    0 ≤ cappedEngine.order.filledQuantity ∧
    cappedEngine.order.filledQuantity ≤ cappedEngine.order.quantity ∧
    cappedEngine.order.status =
      statusOf cappedEngine.order.filledQuantity cappedEngine.order.quantity ∧
    (applyExecution cappedEngine cappedEvent).1.order.status =
      statusOf (applyExecution cappedEngine cappedEvent).1.order.filledQuantity
        (applyExecution cappedEngine cappedEvent).1.order.quantity :=
  ⟨by decide, by decide, by decide, by decide,
    C5_status_consistency cappedEngine cappedEvent (by decide) (by decide) (by decide)
      (by decide)⟩

/-- C6: when every guard passes and the claimed quantity strictly
exceeds the remaining one, the fill grows by exactly the remaining
quantity and the call returns applied true with reason capped_overfill.
The frozen claim additionally asserts that the result carries an
effectiveQuantity field; the source return shape has no such field (see
the counterexample), so the result carries none. -/
theorem C6_capping_transparency (st : TradingEngine) (evt : ExecutionEvent)
    (hpass : specRejectionCascade st evt = none)
    (hover : st.order.quantity - st.order.filledQuantity < evt.executedQuantity) :
    (applyExecution st evt).1.order.filledQuantity =
      st.order.filledQuantity + (st.order.quantity - st.order.filledQuantity) ∧
    (applyExecution st evt).2 = { applied := true, reason := some "capped_overfill" } ∧
    ((applyExecution st evt).2).toSpec.effectiveQuantity = none := by
  obtain ⟨g1, g2, g3, g4, g5⟩ := (cascade_none_iff st evt).1 hpass
  obtain ⟨hf, -, -, -, -, -, -⟩ := success_fields st evt g1 g2 g3 g4 g5
  have hres := success_result st evt g1 g2 g3 g4 g5
  have hmin : min evt.executedQuantity (st.order.quantity - st.order.filledQuantity) =
      st.order.quantity - st.order.filledQuantity := by omega
  refine ⟨by rw [hf, hmin], ?_, ?_⟩
  · rw [hres, if_pos (by omega)]
  · rw [hres, if_pos (by omega)]
    rfl

/-- C6 counterexample: in spec scenario 2 the applied quantity is 2 and
the call is reported as capped, but the returned result has no
effectiveQuantity field at all, so it does not carry the value 2 the
frozen claim promises. -/
theorem C6_counterexample :
    (applyExecution cappedEngine cappedEvent).2.applied = true ∧
    (applyExecution cappedEngine cappedEvent).1.order.filledQuantity -
      cappedEngine.order.filledQuantity = 2 ∧
    ((applyExecution cappedEngine cappedEvent).2).toSpec.effectiveQuantity = none ∧
    (none : Option Int) ≠ some 2 :=
  ⟨by decide, by decide, by decide, by decide⟩

/-- C6 witness: spec scenario 2 on the concrete engine. -/
theorem C6_witness :
    specRejectionCascade cappedEngine cappedEvent = none ∧
    cappedEngine.order.quantity - cappedEngine.order.filledQuantity <
      cappedEvent.executedQuantity ∧
    ((applyExecution cappedEngine cappedEvent).1.order.filledQuantity =
      cappedEngine.order.filledQuantity +
        (cappedEngine.order.quantity - cappedEngine.order.filledQuantity) ∧
     (applyExecution cappedEngine cappedEvent).2 =
       { applied := true, reason := some "capped_overfill" } ∧
     ((applyExecution cappedEngine cappedEvent).2).toSpec.effectiveQuantity = none) :=
  ⟨by decide, by decide,
    C6_capping_transparency cappedEngine cappedEvent (by decide) (by decide)⟩

/-- C7 counterexample: a successful apply of effective quantity 4
leaves the balance at 96, whereas the balance convention of the frozen
claim prescribes 104 for a SELL order; the source order shape has no
side field and the balance is debited unconditionally. -/
theorem C7_counterexample :
    (applyExecution sampleEngine buyEvent4).2.applied = true ∧
    min buyEvent4.executedQuantity
      (sampleEngine.order.quantity - sampleEngine.order.filledQuantity) = 4 ∧
    (applyExecution sampleEngine buyEvent4).1.account.balance = 96 ∧
    sampleEngine.account.balance + specBalanceDelta Side.SELL 4 = 104 ∧
    (96 : Int) ≠ 104 :=
  ⟨by decide, by decide, by decide, by decide, by decide⟩

/-- C7 amended: on every successful apply the balance decreases by
exactly the effective quantity, for every order: the source applies the
BUY debit unconditionally because its order shape has no side field. -/
theorem C7_balance_always_debits (st : TradingEngine) (evt : ExecutionEvent)
    (h : (applyExecution st evt).2.applied = true) :
    (applyExecution st evt).1.account.balance =
      st.account.balance -
        min evt.executedQuantity (st.order.quantity - st.order.filledQuantity) := by
  obtain ⟨g1, g2, g3, g4, g5⟩ := applied_cases st evt h
  exact (success_fields st evt g1 g2 g3 g4 g5).2.2.2.1

/-- C7 witness: spec scenario 1, balance 100 to 96. -/
theorem C7_witness :
    (applyExecution sampleEngine buyEvent4).2.applied = true ∧
    (applyExecution sampleEngine buyEvent4).1.account.balance =
      sampleEngine.account.balance -
        min buyEvent4.executedQuantity
          (sampleEngine.order.quantity - sampleEngine.order.filledQuantity) :=
  ⟨by decide, C7_balance_always_debits sampleEngine buyEvent4 (by decide)⟩

/-- C8: getProcessedEventIds allocates a fresh set whose contents equal
the internal processed-event set; the returned reference is not the
internal one, and writing anything through it changes neither the
result nor the internal set of a subsequent applyExecution call. -/
theorem C8_defensive_copy (σ : SetStore) (eng : TradingEngineRef)
    (hvalid : eng.processedRef < σ.contents.length) :
    (getProcessedEventIds σ eng).1.read (getProcessedEventIds σ eng).2 =
      σ.read eng.processedRef ∧
    (getProcessedEventIds σ eng).2 ≠ eng.processedRef ∧
    ∀ (v : List String) (evt : ExecutionEvent),
      (applyExecutionRef
          ((getProcessedEventIds σ eng).1.write (getProcessedEventIds σ eng).2 v)
          eng evt).2 =
        (applyExecutionRef (getProcessedEventIds σ eng).1 eng evt).2 ∧
      ((applyExecutionRef
          ((getProcessedEventIds σ eng).1.write (getProcessedEventIds σ eng).2 v)
          eng evt).1).read eng.processedRef =
        ((applyExecutionRef (getProcessedEventIds σ eng).1 eng evt).1).read
          eng.processedRef := by
  refine ⟨?_, ?_, ?_⟩
  · show (σ.contents ++ [σ.read eng.processedRef]).getD σ.contents.length [] =
      σ.read eng.processedRef
    exact getD_concat_length _ _ _
  · show σ.contents.length ≠ eng.processedRef
    omega
  · intro v evt
    apply applyExecutionRef_read_congr
    · show ((σ.contents ++ [σ.read eng.processedRef]).set σ.contents.length v).getD
        eng.processedRef [] =
        (σ.contents ++ [σ.read eng.processedRef]).getD eng.processedRef []
      exact getD_set_ne _ _ _ _ _ (by omega)
    · show eng.processedRef <
        ((σ.contents ++ [σ.read eng.processedRef]).set σ.contents.length v).length
      simp only [List.length_set, List.length_append, List.length_singleton]
      omega
    · show eng.processedRef < (σ.contents ++ [σ.read eng.processedRef]).length
      simp only [List.length_append, List.length_singleton]
      omega

/-- C8 witness: one allocated set behind reference 0, mutated copy. -/
theorem C8_witness :
    sampleEngineRef.processedRef < sampleStore.contents.length ∧
    (getProcessedEventIds sampleStore sampleEngineRef).1.read
      (getProcessedEventIds sampleStore sampleEngineRef).2 =
      sampleStore.read sampleEngineRef.processedRef ∧
    (applyExecutionRef
        ((getProcessedEventIds sampleStore sampleEngineRef).1.write
          (getProcessedEventIds sampleStore sampleEngineRef).2 [])
        sampleEngineRef buyEvent4).2 =
      (applyExecutionRef (getProcessedEventIds sampleStore sampleEngineRef).1
        sampleEngineRef buyEvent4).2 :=
  ⟨by decide, (C8_defensive_copy sampleStore sampleEngineRef (by decide)).1,
    ((C8_defensive_copy sampleStore sampleEngineRef (by decide)).2.2 [] buyEvent4).1⟩

/-- C9: from a consistent state with positive quantity and fill bounds
intact, every successful apply grows the fill by the effective quantity,
which is at least one, so the fill strictly increases and the
recomputed status is never OPEN. -/
theorem C9_success_strictly_fills (st : TradingEngine) (evt : ExecutionEvent)
    (hq : 0 < st.order.quantity)
    (h0 : 0 ≤ st.order.filledQuantity)
    (h1 : st.order.filledQuantity ≤ st.order.quantity)
    (hs : st.order.status = statusOf st.order.filledQuantity st.order.quantity)
    (happ : (applyExecution st evt).2.applied = true) :
    (applyExecution st evt).1.order.filledQuantity =
      st.order.filledQuantity +
        min evt.executedQuantity (st.order.quantity - st.order.filledQuantity) ∧
    1 ≤ min evt.executedQuantity (st.order.quantity - st.order.filledQuantity) ∧
    st.order.filledQuantity < (applyExecution st evt).1.order.filledQuantity ∧
    (applyExecution st evt).1.order.status ≠ OrderStatus.OPEN := by
  obtain ⟨g1, g2, g3, g4, g5⟩ := applied_cases st evt happ
  obtain ⟨hf, hqq, -, -, -, hst, -⟩ := success_fields st evt g1 g2 g3 g4 g5
  have hlt : st.order.filledQuantity < st.order.quantity := by
    by_contra hcon
    have heq : st.order.filledQuantity = st.order.quantity := by omega
    apply g5
    rw [hs, heq]
    unfold statusOf
    rw [if_neg (by omega), if_pos rfl]
  have hm : 1 ≤ min evt.executedQuantity (st.order.quantity - st.order.filledQuantity) := by
    omega
  refine ⟨hf, hm, by rw [hf]; omega, ?_⟩
  rw [hst]
  split_ifs <;> first | (exfalso; omega) | simp

/-- C9 witness: spec scenario 1, fill 0 to 4 and status to
PARTIALLY_FILLED. -/
theorem C9_witness :
    0 < sampleEngine.order.quantity ∧
    0 ≤ sampleEngine.order.filledQuantity ∧
    sampleEngine.order.filledQuantity ≤ sampleEngine.order.quantity ∧
    sampleEngine.order.status =
      statusOf sampleEngine.order.filledQuantity sampleEngine.order.quantity ∧
    (applyExecution sampleEngine buyEvent4).2.applied = true ∧
    ((applyExecution sampleEngine buyEvent4).1.order.filledQuantity =
      sampleEngine.order.filledQuantity +
        min buyEvent4.executedQuantity
          (sampleEngine.order.quantity - sampleEngine.order.filledQuantity) ∧
     1 ≤ min buyEvent4.executedQuantity
          (sampleEngine.order.quantity - sampleEngine.order.filledQuantity) ∧
     sampleEngine.order.filledQuantity <
        (applyExecution sampleEngine buyEvent4).1.order.filledQuantity ∧
     (applyExecution sampleEngine buyEvent4).1.order.status ≠ OrderStatus.OPEN) :=
  ⟨by decide, by decide, by decide, by decide, by decide,
    C9_success_strictly_fills sampleEngine buyEvent4 (by decide) (by decide) (by decide)
      (by decide) (by decide)⟩

/-- C10: clearProcessedEvents empties only the processed-event set,
leaving order and account untouched, and afterwards no event at all is
rejected as a duplicate: every subsequent reason lies in the closed
enumeration without duplicate_event. -/
theorem C10_clear_resets_dedup_only (st : TradingEngine) :
    (clearProcessedEvents st).order = st.order ∧
    (clearProcessedEvents st).account = st.account ∧
    (clearProcessedEvents st).processedEventIds = [] ∧
    ∀ evt : ExecutionEvent,
      (applyExecution (clearProcessedEvents st) evt).2.reason ∈
        [none, some "unsupported_event", some "unknown_order",
         some "invalid_executed_quantity", some "already_filled", some "capped_overfill"] := by
  refine ⟨rfl, rfl, rfl, ?_⟩
  intro evt
  unfold clearProcessedEvents applyExecution
  dsimp only
  split_ifs <;> simp_all

end Flowdesk
